import Mathlib

/-!
Verification of the distributed rate limiter in
`app/core/rate_limiting.py` (sliding window / fixed window / token bucket
admission control over a shared Redis-like counter store, with an
in-process fallback).

Modelling conventions:
* Python `int` is `Int`; Python `float` arithmetic (token counts, the burst
  multiplier) is modelled as exact rational arithmetic over `ℚ`.
* Python `int(x)` (truncation toward zero) is `pyInt`.
* A Redis sorted set is a list of entries with unique members; the member
  string `f"{current_time}:{cost}"` is represented by the pair of integers
  it encodes (the encoding is injective).
* The per-identifier Redis state is an `IdStore`; fixed-window counters are
  a map from the window-start bucket to the stored counter, mirroring the
  per-bucket keys `rate_limit:fixed:{id}:{window_start}`.
* Key TTLs (`expire`) and the memory-store global cleanup (which only runs
  once the process-wide map holds more than 1000 identifiers) are not
  modelled; no claim depends on them.
* `reset_rate_limit` is modelled on the key space itself (lists of
  `List Char` keys), since its behaviour is a glob-pattern deletion.
-/

namespace RateLimiting

/-- Python `int(x)` on a rational: truncation toward zero. -/
def pyInt (q : ℚ) : Int := if 0 ≤ q then ⌊q⌋ else ⌈q⌉

/-- The `RateLimitStrategy` enum. -/
inductive RateLimitStrategy where
  | fixed_window
  | sliding_window
  | token_bucket
deriving DecidableEq

/-- The `.value` attribute of the enum members. -/
def RateLimitStrategy.value : RateLimitStrategy → String
  | .fixed_window => "fixed_window"
  | .sliding_window => "sliding_window"
  | .token_bucket => "token_bucket"

/-- The `RateLimit` dataclass: `requests`, `window` (seconds), `strategy`. -/
structure RateLimit where
  requests : Int
  window : Int
  strategy : RateLimitStrategy
deriving DecidableEq

/-- Error used to express the spec's `InvalidConfiguration` failure mode. -/
inductive ConfigError where
  | invalidConfiguration
deriving DecidableEq

/-- Construction of a `RateLimit`.  The dataclass has no `__post_init__`
and performs no validation whatsoever, so construction always succeeds. -/
def mkRateLimit (requests window : Int) (strategy : RateLimitStrategy) :
    Except ConfigError RateLimit :=
  .ok { requests := requests, window := window, strategy := strategy }

/-- Engine-level configuration from `RateLimiter.__init__`:
`enable_burst=True`, `burst_multiplier=1.5`. -/
structure RateLimiterCfg where
  enable_burst : Bool
  burst_multiplier : ℚ

/-- The constructor defaults of `RateLimiter`. -/
def defaultCfg : RateLimiterCfg := { enable_burst := true, burst_multiplier := 3 / 2 }

/-- One member of the sliding-window sorted set: the member string
`f"{current_time}:{cost}"` (as the pair it encodes) plus its score. -/
structure SWEntry where
  m_time : Int
  m_cost : Int
  score : Int
deriving DecidableEq

/-- Redis `ZREMRANGEBYSCORE key lo hi`: drop members whose score lies in
the inclusive range `[lo, hi]`. -/
def zremrangebyscore (s : List SWEntry) (lo hi : Int) : List SWEntry :=
  s.filter (fun e => !decide (lo ≤ e.score ∧ e.score ≤ hi))

/-- Redis `ZADD key {member: score}`: update the score if the member is
already present (cardinality unchanged), otherwise append the member. -/
def zadd (s : List SWEntry) (mt mc sc : Int) : List SWEntry :=
  if s.any (fun e => decide (e.m_time = mt ∧ e.m_cost = mc)) then
    s.map (fun e => if e.m_time = mt ∧ e.m_cost = mc then { e with score := sc } else e)
  else
    s ++ [{ m_time := mt, m_cost := mc, score := sc }]

/-- The dictionary returned by one rate-limit check. -/
structure RateInfo where
  exceeded : Bool
  limit : Int
  remaining : Int
  reset_time : ℚ
  retry_after : Int
  strategy : String
deriving DecidableEq

/-- `RateLimiter._sliding_window_redis`: prune entries with score in
`[0, now - window]`, count (ZCARD), add the member `f"{now}:{cost}"` with
score `now`, then decide against the (possibly burst-raised) ceiling. -/
def sliding_window_redis (cfg : RateLimiterCfg) (limit : RateLimit) (cost t : Int)
    (s : List SWEntry) : RateInfo × List SWEntry :=
  let window_start := t - limit.window
  let s1 := zremrangebyscore s 0 window_start
  let s2 := zadd s1 t cost t
  let current := (s1.length : Int) + cost
  let max_requests :=
    if cfg.enable_burst then pyInt ((limit.requests : ℚ) * cfg.burst_multiplier)
    else limit.requests
  ({ exceeded := decide (current > max_requests),
     limit := limit.requests,
     remaining := max 0 (limit.requests - current),
     reset_time := ((t + limit.window : Int) : ℚ),
     retry_after := if current > max_requests then limit.window else 0,
     strategy := limit.strategy.value }, s2)

/-- `RateLimiter._fixed_window_redis`: the state is the counter map keyed
by the window-start bucket (`rate_limit:fixed:{id}:{window_start}`); the
pipeline result used is the INCRBY return value (old counter plus cost). -/
def fixed_window_redis (limit : RateLimit) (cost t : Int)
    (m : Int → Option Int) : RateInfo × (Int → Option Int) :=
  let window_start := (Int.fdiv t limit.window) * limit.window
  let current := (m window_start).getD 0 + cost
  let reset_time := window_start + limit.window
  ({ exceeded := decide (current > limit.requests),
     limit := limit.requests,
     remaining := max 0 (limit.requests - current),
     reset_time := ((reset_time : Int) : ℚ),
     retry_after := if current > limit.requests then reset_time - t else 0,
     strategy := limit.strategy.value },
   fun k => if k = window_start then some current else m k)

/-- The hash stored at `rate_limit:bucket:{id}`: token count and the
timestamp of the last refill. -/
structure BucketState where
  tokens : ℚ
  last_refill : Int
deriving DecidableEq

/-- `RateLimiter._token_bucket_redis` (the Lua script plus the Python
post-processing): refill at `requests/window` tokens per second capped at
`requests`, consume `cost` only if enough tokens, persist the new
full-precision state unconditionally.  The script reply
`{can_consume and 1 or 0, tokens}` goes through the Redis Lua-number →
integer conversion, which truncates the decimal part, so the Python side
sees `remaining_tokens = trunc(tokens)` and computes
`retry_after = int((cost - remaining_tokens) / refill_rate) + 1` when
denied. -/
def token_bucket_redis (limit : RateLimit) (cost t : Int) (b : Option BucketState) :
    RateInfo × BucketState :=
  let capacity : ℚ := (limit.requests : ℚ)
  let refill_rate : ℚ := (limit.requests : ℚ) / (limit.window : ℚ)
  let tokens0 : ℚ := (b.map (fun x => x.tokens)).getD capacity
  let last_refill : Int := (b.map (fun x => x.last_refill)).getD t
  let time_passed : ℚ := ((t - last_refill : Int) : ℚ)
  let tokens1 : ℚ := min capacity (tokens0 + time_passed * refill_rate)
  let can_consume : Bool := decide ((cost : ℚ) ≤ tokens1)
  let tokens2 : ℚ := if (cost : ℚ) ≤ tokens1 then tokens1 - (cost : ℚ) else tokens1
  let remaining_tokens : Int := pyInt tokens2
  ({ exceeded := !can_consume,
     limit := limit.requests,
     remaining := remaining_tokens,
     reset_time := (t : ℚ) + capacity / refill_rate,
     retry_after :=
       if (cost : ℚ) ≤ tokens1 then 0
       else pyInt (((cost - remaining_tokens : Int) : ℚ) / refill_rate) + 1,
     strategy := limit.strategy.value },
   { tokens := tokens2, last_refill := t })

/-- The per-identifier record of the in-memory fallback store. -/
structure MemEntry where
  requests : List Int
  last_access : Int
deriving DecidableEq

/-- `RateLimiter._check_memory_rate_limit` (for a store below the global
cleanup threshold): prune timestamps older than `now - window` (inclusive
keep), count plus cost, and append `cost` copies of `now` only when the
request is not denied.  The reported strategy is always
`"memory_fallback"`. -/
def check_memory_rate_limit (limit : RateLimit) (cost t : Int)
    (e : Option MemEntry) : RateInfo × MemEntry :=
  let e0 := e.getD { requests := [], last_access := t }
  let window_start := t - limit.window
  let pruned := e0.requests.filter (fun r => decide (window_start ≤ r))
  let current := (pruned.length : Int) + cost
  ({ exceeded := decide (current > limit.requests),
     limit := limit.requests,
     remaining := max 0 (limit.requests - current),
     reset_time := ((t + limit.window : Int) : ℚ),
     retry_after := if current > limit.requests then limit.window else 0,
     strategy := "memory_fallback" },
   { requests :=
       if current > limit.requests then pruned
       else pruned ++ List.replicate cost.toNat t,
     last_access := t })

/-- All Redis-side state for one identifier. -/
structure IdStore where
  sliding : List SWEntry
  fixedc : Int → Option Int
  bucket : Option BucketState

/-- A fresh identifier: no keys exist yet. -/
def emptyIdStore : IdStore :=
  { sliding := [], fixedc := fun _ => none, bucket := none }

/-- `RateLimiter._check_redis_rate_limit`: pure dispatch on the strategy. -/
def check_redis_rate_limit (cfg : RateLimiterCfg) (limit : RateLimit) (cost t : Int)
    (st : IdStore) : RateInfo × IdStore :=
  match limit.strategy with
  | .sliding_window =>
      let r := sliding_window_redis cfg limit cost t st.sliding
      (r.1, { st with sliding := r.2 })
  | .fixed_window =>
      let r := fixed_window_redis limit cost t st.fixedc
      (r.1, { st with fixedc := r.2 })
  | .token_bucket =>
      let r := token_bucket_redis limit cost t st.bucket
      (r.1, { st with bucket := some r.2 })

/-- How the Redis client behaves for this call.  `noClient`: `_get_redis`
returned `None` (library missing or pool construction failed), so the
memory fallback is used.  `available`: commands succeed.
`failingCommands`: a client object exists but the store is unreachable, so
the pipeline raises at execution time. -/
inductive RedisAvail where
  | noClient
  | available
  | failingCommands
deriving DecidableEq

/-- The exceptions observable from `check_rate_limit`:
`RateLimitExceededException` (with its payload) or a propagated
store-layer error (the code installs no handler around the Redis calls). -/
inductive CheckErr where
  | rateLimitExceeded (retry_after lim window : Int)
  | storeError
deriving DecidableEq

/-- `RateLimiter.check_rate_limit`: run the appropriate path, then raise
`RateLimitExceededException` when the decision is exceeded.  A store-layer
failure during command execution propagates unhandled. -/
def check_rate_limit (cfg : RateLimiterCfg) (avail : RedisAvail) (limit : RateLimit)
    (cost t : Int) (rst : IdStore) (mst : Option MemEntry) :
    Except CheckErr RateInfo × IdStore × Option MemEntry :=
  match avail with
  | .available =>
      let r := check_redis_rate_limit cfg limit cost t rst
      (if r.1.exceeded = true then
         .error (.rateLimitExceeded r.1.retry_after limit.requests limit.window)
       else .ok r.1, r.2, mst)
  | .noClient =>
      let r := check_memory_rate_limit limit cost t mst
      (if r.1.exceeded = true then
         .error (.rateLimitExceeded r.1.retry_after limit.requests limit.window)
       else .ok r.1, rst, some r.2)
  | .failingCommands => (.error .storeError, rst, mst)

/-- The dictionary returned by `get_rate_limit_info`. -/
structure PeekInfo where
  limit : Int
  remaining : Int
  reset_time : Int
  current_requests : Int
deriving DecidableEq

/-- `RateLimiter.get_rate_limit_info`, Redis path: it always operates on
the sliding-window key `rate_limit:sliding:{id}` — it prunes (a mutation)
and counts, but adds nothing. -/
def get_rate_limit_info (limit : RateLimit) (t : Int) (s : List SWEntry) :
    PeekInfo × List SWEntry :=
  let window_start := t - limit.window
  let s1 := zremrangebyscore s 0 window_start
  ({ limit := limit.requests,
     remaining := max 0 (limit.requests - (s1.length : Int)),
     reset_time := t + limit.window,
     current_requests := (s1.length : Int) }, s1)

/-- `get_rate_limit_info` lifted to the full per-identifier store: only
the sliding component is read or written. -/
def get_rate_limit_info_store (limit : RateLimit) (t : Int) (st : IdStore) :
    PeekInfo × IdStore :=
  let r := get_rate_limit_info limit t st.sliding
  (r.1, { st with sliding := r.2 })

/-- `RateLimiter.get_rate_limit_info`, memory-fallback path: counts the
in-window timestamps without writing anything. -/
def get_rate_limit_info_memory (limit : RateLimit) (t : Int)
    (mst : Option MemEntry) : PeekInfo × Option MemEntry :=
  match mst with
  | none =>
      ({ limit := limit.requests, remaining := limit.requests,
         reset_time := t + limit.window, current_requests := 0 }, none)
  | some e =>
      let window_start := t - limit.window
      let n := ((e.requests.filter (fun r => decide (window_start ≤ r))).length : Int)
      ({ limit := limit.requests, remaining := max 0 (limit.requests - n),
         reset_time := t + limit.window, current_requests := n }, some e)

/-- Whether a pattern is an initial segment of a character list. -/
def startsWithSeq : List Char → List Char → Bool
  | [], _ => true
  | _ :: _, [] => false
  | p :: ps, c :: cs => p == c && startsWithSeq ps cs

/-- Whether a pattern occurs contiguously somewhere in a character list. -/
def containsSeq (p : List Char) : List Char → Bool
  | [] => startsWithSeq p []
  | c :: cs => startsWithSeq p (c :: cs) || containsSeq p cs

/-- Redis glob matching for the exact pattern `rate_limit:*:{identifier}*`
used by `reset_rate_limit` (`*` matches any characters, colons included):
the key starts with `rate_limit:` and the remainder contains
`:{identifier}` somewhere. -/
def resetKeyPattern (id k : List Char) : Bool :=
  startsWithSeq "rate_limit:".data k && containsSeq (':' :: id) (k.drop 11)

/-- The sliding-window key `rate_limit:sliding:{identifier}`. -/
def slidingKey (id : List Char) : List Char := "rate_limit:sliding:".data ++ id

/-- A fixed-window key `rate_limit:fixed:{identifier}:{window_start}`
(`ws` is the rendered window-start bucket). -/
def fixedKey (id ws : List Char) : List Char :=
  "rate_limit:fixed:".data ++ id ++ ':' :: ws

/-- The token-bucket key `rate_limit:bucket:{identifier}`. -/
def bucketKey (id : List Char) : List Char := "rate_limit:bucket:".data ++ id

/-- `RateLimiter.reset_rate_limit`, Redis path: delete every key matching
`rate_limit:*:{identifier}*` and return `True`. -/
def reset_rate_limit (id : List Char) (ks : List (List Char)) :
    List (List Char) × Bool :=
  (ks.filter (fun k => !resetKeyPattern id k), true)

/-- A sequence of sliding-window checks `(time, cost)` against one
identifier, returning the decisions in order and the final stored set. -/
def runSliding (cfg : RateLimiterCfg) (limit : RateLimit)
    (calls : List (Int × Int)) (s : List SWEntry) : List RateInfo × List SWEntry :=
  match calls with
  | [] => ([], s)
  | (t, c) :: rest =>
      let r := sliding_window_redis cfg limit c t s
      let rs := runSliding cfg limit rest r.2
      (r.1 :: rs.1, rs.2)

/-- A sequence of token-bucket checks `(time, cost)` against one
identifier, returning the final stored bucket. -/
def runBucket (limit : RateLimit) (calls : List (Int × Int))
    (b : Option BucketState) : Option BucketState :=
  match calls with
  | [] => b
  | (t, c) :: rest => runBucket limit rest (some (token_bucket_redis limit c t b).2)

/-- A sequence of peeks at the given times against one identifier's
sliding set (Redis path). -/
def runPeeks (limit : RateLimit) (tps : List Int) (s : List SWEntry) : List SWEntry :=
  match tps with
  | [] => s
  | tp :: rest => runPeeks limit rest (get_rate_limit_info limit tp s).2

/-- The stored token count is bounded by the capacity. -/
def BucketWF (limit : RateLimit) (b : Option BucketState) : Prop :=
  ∀ x, b = some x → x.tokens ≤ (limit.requests : ℚ)

/-- An identifier with no stored fixed-window counters. -/
def emptyFixed : Int → Option Int := fun _ => none

/-! Helper lemmas. -/

lemma pyInt_eq_floor (q : ℚ) (h : 0 ≤ q) : pyInt q = ⌊q⌋ := if_pos h

lemma pyInt_le_of_le (q : ℚ) (c : Int) (h : q ≤ (c : ℚ)) : pyInt q ≤ c := by
  unfold pyInt
  split
  · exact le_trans (Int.floor_le_floor h) (le_of_eq (Int.floor_intCast c))
  · exact le_trans (Int.ceil_le_ceil h) (le_of_eq (Int.ceil_intCast c))

lemma filter_filter_of_imp {α : Type} (p q : α → Bool)
    (h : ∀ a, p a = true → q a = true) (l : List α) :
    (l.filter q).filter p = l.filter p := by
  induction l with
  | nil => rfl
  | cons a t ih =>
    by_cases hp : p a = true
    · have hq := h a hp
      simp [List.filter_cons, hp, hq, ih]
    · have hp2 : p a = false := by
        cases hpa : p a
        · rfl
        · exact absurd hpa hp
      by_cases hq : q a = true
      · simp [List.filter_cons, hp2, hq, ih]
      · have hq2 : q a = false := by
          cases hqa : q a
          · rfl
          · exact absurd hqa hq
        simp [List.filter_cons, hp2, hq2, ih]

lemma zremrangebyscore_twice (s : List SWEntry) (b1 b2 : Int) (h : b1 ≤ b2) :
    zremrangebyscore (zremrangebyscore s 0 b1) 0 b2 = zremrangebyscore s 0 b2 := by
  unfold zremrangebyscore
  apply filter_filter_of_imp
  intro e he
  rw [Bool.not_eq_true', decide_eq_false_iff_not] at he ⊢
  intro hc
  exact he ⟨hc.1, le_trans hc.2 h⟩

lemma zadd_mem (s : List SWEntry) (mt mc sc : Int) :
    ∃ en, en ∈ zadd s mt mc sc ∧ en.m_time = mt ∧ en.m_cost = mc ∧ en.score = sc := by
  unfold zadd
  by_cases hany : s.any (fun e => decide (e.m_time = mt ∧ e.m_cost = mc)) = true
  · rw [if_pos hany]
    obtain ⟨e0, he0, hp⟩ := List.any_eq_true.mp hany
    rw [decide_eq_true_eq] at hp
    refine ⟨{ e0 with score := sc }, List.mem_map.mpr ⟨e0, he0, ?_⟩, hp.1, hp.2, rfl⟩
    rw [if_pos hp]
  · rw [if_neg hany]
    exact ⟨{ m_time := mt, m_cost := mc, score := sc },
      List.mem_append_right _ (List.mem_singleton_self _), rfl, rfl, rfl⟩

lemma check_memory_strategy (limit : RateLimit) (cost t : Int) (e : Option MemEntry) :
    (check_memory_rate_limit limit cost t e).1.strategy = "memory_fallback" := rfl

lemma check_memory_retry_of_exceeded (limit : RateLimit) (cost t : Int)
    (e : Option MemEntry)
    (h : (check_memory_rate_limit limit cost t e).1.exceeded = true) :
    (check_memory_rate_limit limit cost t e).1.retry_after = limit.window := by
  unfold check_memory_rate_limit at h ⊢
  dsimp only at h ⊢
  rw [decide_eq_true_eq] at h
  rw [if_pos h]

lemma token_bucket_tokens_le (limit : RateLimit) (cost t : Int)
    (b : Option BucketState) (hcost : 0 ≤ cost) :
    (token_bucket_redis limit cost t b).2.tokens ≤ (limit.requests : ℚ) := by
  unfold token_bucket_redis
  dsimp only
  split
  · exact le_trans (sub_le_self _ (by exact_mod_cast hcost)) (min_le_left _ _)
  · exact min_le_left _ _

lemma runBucket_wf (limit : RateLimit) :
    ∀ (calls : List (Int × Int)) (b : Option BucketState),
      (∀ p ∈ calls, 0 ≤ p.2) → BucketWF limit b →
      BucketWF limit (runBucket limit calls b) := by
  intro calls
  induction calls with
  | nil => intro b _ hwf; exact hwf
  | cons hd rest ih =>
    obtain ⟨t, c⟩ := hd
    intro b hc hwf
    rw [runBucket]
    apply ih
    · intro p hp
      exact hc p (List.mem_cons_of_mem _ hp)
    · intro x hx
      obtain rfl : (token_bucket_redis limit c t b).2 = x := Option.some.inj hx
      exact token_bucket_tokens_le limit c t b (hc (t, c) (List.mem_cons_self _ _))

lemma token_bucket_denied_no_decrease (limit : RateLimit) (c t : Int) (x : BucketState)
    (hreq : 0 ≤ limit.requests) (hwin : 0 ≤ limit.window)
    (hx : x.tokens ≤ (limit.requests : ℚ)) (ht : x.last_refill ≤ t)
    (hd : (token_bucket_redis limit c t (some x)).1.exceeded = true) :
    x.tokens ≤ (token_bucket_redis limit c t (some x)).2.tokens ∧
    (token_bucket_redis limit c t (some x)).2.last_refill = t := by
  unfold token_bucket_redis at hd ⊢
  dsimp only at hd ⊢
  rw [Bool.not_eq_true', decide_eq_false_iff_not] at hd
  refine ⟨?_, rfl⟩
  rw [if_neg hd]
  apply le_min hx
  have h1 : (0 : ℚ) ≤ ((t - x.last_refill : Int) : ℚ) := by
    exact_mod_cast sub_nonneg.mpr ht
  have h2 : (0 : ℚ) ≤ (limit.requests : ℚ) / (limit.window : ℚ) :=
    div_nonneg (by exact_mod_cast hreq) (by exact_mod_cast hwin)
  exact le_add_of_nonneg_right (mul_nonneg h1 h2)

lemma sliding_check_after_single_peek (cfg : RateLimiterCfg) (limit : RateLimit)
    (cost tp tc : Int) (s : List SWEntry) (h : tp ≤ tc) :
    sliding_window_redis cfg limit cost tc (get_rate_limit_info limit tp s).2 =
      sliding_window_redis cfg limit cost tc s := by
  unfold sliding_window_redis get_rate_limit_info
  dsimp only
  rw [zremrangebyscore_twice s (tp - limit.window) (tc - limit.window) (by omega)]

lemma runPeeks_preserves (cfg : RateLimiterCfg) (limit : RateLimit) (cost tc : Int) :
    ∀ (tps : List Int) (s : List SWEntry), (∀ tp ∈ tps, tp ≤ tc) →
      sliding_window_redis cfg limit cost tc (runPeeks limit tps s) =
        sliding_window_redis cfg limit cost tc s := by
  intro tps
  induction tps with
  | nil => intro s _; rfl
  | cons tp rest ih =>
    intro s h
    rw [runPeeks]
    rw [ih _ (fun q hq => h q (List.mem_cons_of_mem _ hq))]
    exact sliding_check_after_single_peek cfg limit cost tp tc s
      (h tp (List.mem_cons_self _ _))

lemma drop_append_len {α : Type} (l1 l2 : List α) : (l1 ++ l2).drop l1.length = l2 :=
  List.drop_left l1 l2

lemma startsWithSeq_iff (p : List Char) :
    ∀ l : List Char, startsWithSeq p l = true ↔ ∃ y, l = p ++ y := by
  induction p with
  | nil =>
    intro l
    simp [startsWithSeq]
  | cons a ps ih =>
    intro l
    cases l with
    | nil =>
      simp [startsWithSeq]
    | cons c cs =>
      rw [startsWithSeq, Bool.and_eq_true, beq_iff_eq, ih]
      constructor
      · rintro ⟨rfl, y, rfl⟩
        exact ⟨y, rfl⟩
      · rintro ⟨y, hy⟩
        injection hy with h1 h2
        exact ⟨h1.symm, y, h2⟩

lemma containsSeq_iff (p : List Char) :
    ∀ l : List Char, containsSeq p l = true ↔ ∃ x y, l = x ++ p ++ y := by
  intro l
  induction l with
  | nil =>
    rw [containsSeq, startsWithSeq_iff]
    constructor
    · rintro ⟨y, hy⟩
      exact ⟨[], y, by simpa using hy⟩
    · rintro ⟨x, y, hxy⟩
      obtain ⟨hxp, hy⟩ := List.append_eq_nil.mp hxy.symm
      obtain ⟨hx, hp⟩ := List.append_eq_nil.mp hxp
      exact ⟨[], by simp [hp]⟩
  | cons c cs ih =>
    rw [containsSeq, Bool.or_eq_true, startsWithSeq_iff, ih]
    constructor
    · rintro (⟨y, hy⟩ | ⟨x, y, hxy⟩)
      · exact ⟨[], y, by simpa using hy⟩
      · exact ⟨c :: x, y, by simp [hxy]⟩
    · rintro ⟨x, y, hxy⟩
      cases x with
      | nil =>
        left
        exact ⟨y, by simpa using hxy⟩
      | cons a xs =>
        right
        rw [List.cons_append, List.cons_append] at hxy
        injection hxy with h1 h2
        exact ⟨xs, y, h2⟩

lemma resetKeyPattern_iff (id k : List Char) :
    resetKeyPattern id k = true ↔
      ∃ x y, k = "rate_limit:".data ++ x ++ ':' :: (id ++ y) := by
  unfold resetKeyPattern
  rw [Bool.and_eq_true, startsWithSeq_iff, containsSeq_iff]
  constructor
  · rintro ⟨⟨r, rfl⟩, x, y, hxy⟩
    rw [show (11 : Nat) = ("rate_limit:".data).length from by decide,
      drop_append_len] at hxy
    refine ⟨x, y, ?_⟩
    rw [hxy]
    simp
  · rintro ⟨x, y, rfl⟩
    constructor
    · exact ⟨x ++ ':' :: (id ++ y), by simp⟩
    · refine ⟨x, y, ?_⟩
      have hk : ("rate_limit:".data ++ x) ++ ':' :: (id ++ y) =
          "rate_limit:".data ++ (x ++ ':' :: (id ++ y)) := by simp
      rw [show (11 : Nat) = ("rate_limit:".data).length from by decide, hk,
        drop_append_len]
      simp

lemma resetKeyPattern_of_shape (id x y : List Char) :
    resetKeyPattern id ("rate_limit:".data ++ x ++ ':' :: (id ++ y)) = true :=
  (resetKeyPattern_iff id _).mpr ⟨x, y, rfl⟩

/-! Claim theorems. -/

/-- C1, counterexample.  The claimed scenario (requests 5, window 60,
sliding window, default engine configuration, six calls at t 0) does not
happen: the five calls do not return remaining 4,3,2,1,0 and the sixth
call is not denied.  Same-second equal-cost calls collapse onto a single
sorted-set member and the default burst allowance raises the ceiling to
int(5 * 1.5) = 7, so the counted total never exceeds 2. -/
theorem c1_counterexample :
    ¬ (((runSliding defaultCfg { requests := 5, window := 60, strategy := .sliding_window }
          [(0, 1), (0, 1), (0, 1), (0, 1), (0, 1)] []).1.map (fun i => i.remaining))
            = [4, 3, 2, 1, 0] ∧
       ((runSliding defaultCfg { requests := 5, window := 60, strategy := .sliding_window }
          [(0, 1), (0, 1), (0, 1), (0, 1), (0, 1), (0, 1)] []).1.map (fun i => i.exceeded))
            = [false, false, false, false, false, true]) := by
  norm_num [runSliding, sliding_window_redis, zremrangebyscore, zadd, pyInt, defaultCfg]

/-- C1, amended.  Under the default configuration the seven calls of the
scenario (six at t 0, one at t 61) are all admitted: the decisions are
(exceeded, remaining, retry_after) = (false,4,0), then (false,3,0) five
times — the repeated member f-string keeps the counted set at one entry —
and (false,4,0) at t 61 once the old entry leaves the window. -/
theorem c1_sliding_window_scenario :
    ((runSliding defaultCfg { requests := 5, window := 60, strategy := .sliding_window }
        [(0, 1), (0, 1), (0, 1), (0, 1), (0, 1), (0, 1), (61, 1)] []).1.map
      (fun i => (i.exceeded, i.remaining, i.retry_after))) =
    [(false, 4, 0), (false, 3, 0), (false, 3, 0), (false, 3, 0), (false, 3, 0),
     (false, 3, 0), (false, 4, 0)] := by
  norm_num [runSliding, sliding_window_redis, zremrangebyscore, zadd, pyInt, defaultCfg]

/-- C2, counterexample.  For the token bucket with requests 10, window 10,
zero stored tokens, a denied cost-1 call at t 0 returns retry_after 2,
whereas the claimed formula ceil((cost - tokens)/refillRate) gives 1. -/
theorem c2_counterexample :
    (token_bucket_redis { requests := 10, window := 10, strategy := .token_bucket } 1 0
        (some { tokens := 0, last_refill := 0 })).1.exceeded = true ∧
    (token_bucket_redis { requests := 10, window := 10, strategy := .token_bucket } 1 0
        (some { tokens := 0, last_refill := 0 })).1.retry_after = 2 ∧
    (⌈(((1 : Int) : ℚ) - 0) / (((10 : Int) : ℚ) / ((10 : Int) : ℚ))⌉ : Int) = 1 := by
  refine ⟨?_, ?_, ?_⟩
  · norm_num [token_bucket_redis]
  · norm_num [token_bucket_redis, pyInt]
  · norm_num

/-- C2, amended.  Whenever a token-bucket check is denied, the returned
retry_after is floor((cost - trunc(tokens))/refillRate) + 1, where
trunc(tokens) is the reply-truncated post-refill token count (the Redis
script reply converts the Lua number to an integer, dropping the decimal
part, while the stored state keeps full precision) — not the claimed
ceiling of the exact quotient. -/
theorem c2_token_bucket_retry_after (limit : RateLimit) (cost t : Int)
    (b : Option BucketState) (hreq : 0 < limit.requests) (hwin : 0 < limit.window)
    (hdenied : (token_bucket_redis limit cost t b).1.exceeded = true) :
    (token_bucket_redis limit cost t b).1.retry_after =
      ⌊((cost - pyInt (token_bucket_redis limit cost t b).2.tokens : Int) : ℚ) /
          ((limit.requests : ℚ) / (limit.window : ℚ))⌋ + 1 := by
  unfold token_bucket_redis at hdenied ⊢
  dsimp only at hdenied ⊢
  rw [Bool.not_eq_true', decide_eq_false_iff_not] at hdenied
  simp only [if_neg hdenied]
  congr 1
  apply pyInt_eq_floor
  apply div_nonneg
  · have hlt := not_le.mp hdenied
    have hle := pyInt_le_of_le _ _ (le_of_lt hlt)
    exact_mod_cast sub_nonneg.mpr hle
  · have h1 : (0 : ℚ) < (limit.requests : ℚ) := by exact_mod_cast hreq
    have h2 : (0 : ℚ) < (limit.window : ℚ) := by exact_mod_cast hwin
    exact le_of_lt (div_pos h1 h2)

/-- C2, witness: the amended formula at the scenario input (denied cost-1
call on an empty bucket with refill rate 1) evaluates through the theorem. -/
theorem c2_token_bucket_retry_after_witness :
    (token_bucket_redis { requests := 10, window := 10, strategy := .token_bucket } 1 0
        (some { tokens := 0, last_refill := 0 })).1.retry_after =
      ⌊(((1 : Int) - pyInt
            (token_bucket_redis { requests := 10, window := 10, strategy := .token_bucket } 1 0
              (some { tokens := 0, last_refill := 0 })).2.tokens : Int) : ℚ) /
          ((((10 : Int) : ℚ)) / (((10 : Int) : ℚ)))⌋ + 1 :=
  c2_token_bucket_retry_after { requests := 10, window := 10, strategy := .token_bucket }
    1 0 (some { tokens := 0, last_refill := 0 }) (by norm_num) (by norm_num)
    (by norm_num [token_bucket_redis])

/-- C4, counterexample.  Constructing a configuration with requests 0 and
window 0 succeeds: the dataclass performs no validation and no
InvalidConfiguration error is raised at construction time. -/
theorem c4_counterexample :
    mkRateLimit 0 0 .sliding_window =
      .ok { requests := 0, window := 0, strategy := .sliding_window } := rfl

/-- C4, amended.  Construction of a rate-limit configuration never fails,
whatever the requests and window values; an invalid configuration is only
observable at check time (with requests 0, every cost-1 sliding-window
check is denied). -/
theorem c4_no_construction_validation (r w : Int) (s : RateLimitStrategy) :
    mkRateLimit r w s = .ok { requests := r, window := w, strategy := s } ∧
    (sliding_window_redis defaultCfg
        { requests := 0, window := 60, strategy := .sliding_window } 1 0 []).1.exceeded
      = true := by
  refine ⟨rfl, ?_⟩
  norm_num [sliding_window_redis, zremrangebyscore, zadd, pyInt, defaultCfg]

/-- C6, counterexample.  Monotonic denial fails for the token-bucket
strategy: with an empty bucket a cost-1 check at t 0 is denied, yet an
immediately following cost-0 check at the same time is admitted. -/
theorem c6_counterexample :
    (token_bucket_redis { requests := 10, window := 10, strategy := .token_bucket } 1 0
        (some { tokens := 0, last_refill := 0 })).1.exceeded = true ∧
    (token_bucket_redis { requests := 10, window := 10, strategy := .token_bucket } 0 0
        (some (token_bucket_redis { requests := 10, window := 10, strategy := .token_bucket }
          1 0 (some { tokens := 0, last_refill := 0 })).2)).1.exceeded = false := by
  constructor
  · norm_num [token_bucket_redis]
  · norm_num [token_bucket_redis]

/-- C6, amended.  Monotonic denial does hold for the fixed-window
strategy: the denied cost is persisted in the window counter, so a cost-0
check at the same timestamp reads the same total and is denied again. -/
theorem c6_fixed_window_monotonic_denial (limit : RateLimit) (cost t : Int)
    (m : Int → Option Int)
    (h : (fixed_window_redis limit cost t m).1.exceeded = true) :
    (fixed_window_redis limit 0 t
        (fixed_window_redis limit cost t m).2).1.exceeded = true := by
  unfold fixed_window_redis at h ⊢
  dsimp only at h ⊢
  rw [decide_eq_true_eq] at h
  rw [decide_eq_true_eq]
  simpa using h

/-- C6, witness: a denied cost-2 check against requests 1 followed by a
cost-0 check at the same time, through the theorem. -/
theorem c6_fixed_window_monotonic_denial_witness :
    (fixed_window_redis { requests := 1, window := 60, strategy := .fixed_window } 0 0
        (fixed_window_redis { requests := 1, window := 60, strategy := .fixed_window }
          2 0 emptyFixed).2).1.exceeded = true :=
  c6_fixed_window_monotonic_denial
    { requests := 1, window := 60, strategy := .fixed_window } 2 0 emptyFixed
    (by norm_num [fixed_window_redis, emptyFixed])

/-- C3, counterexample.  When a Redis client exists but the store is
unreachable at command time, the failure propagates out of
check_rate_limit: the caller observes a store-layer error, not a
memory_fallback decision and not a QuotaExceeded error. -/
theorem c3_counterexample :
    (check_rate_limit defaultCfg .failingCommands
        { requests := 5, window := 60, strategy := .sliding_window } 1 0
        emptyIdStore none).1 = .error .storeError := rfl

/-- C3, amended.  The memory fallback engages exactly when no client
could be constructed: on that path check_rate_limit never surfaces a
store-layer failure, every successful decision reports the strategy
string memory_fallback, and the only error is the quota-exceeded one
(whose retry_after is the window). -/
theorem c3_noclient_fallback_decision (cfg : RateLimiterCfg) (limit : RateLimit)
    (cost t : Int) (rst : IdStore) (mst : Option MemEntry) :
    ((check_rate_limit cfg .noClient limit cost t rst mst).1 ≠ .error .storeError) ∧
    (∀ info, (check_rate_limit cfg .noClient limit cost t rst mst).1 = .ok info →
        info.strategy = "memory_fallback") ∧
    (∀ err, (check_rate_limit cfg .noClient limit cost t rst mst).1 = .error err →
        err = .rateLimitExceeded limit.window limit.requests limit.window) := by
  have hform : (check_rate_limit cfg .noClient limit cost t rst mst).1 =
      (if (check_memory_rate_limit limit cost t mst).1.exceeded = true then
        .error (.rateLimitExceeded
          (check_memory_rate_limit limit cost t mst).1.retry_after
          limit.requests limit.window)
       else .ok (check_memory_rate_limit limit cost t mst).1) := rfl
  rw [hform]
  by_cases hx : (check_memory_rate_limit limit cost t mst).1.exceeded = true
  · rw [if_pos hx]
    have hretry := check_memory_retry_of_exceeded limit cost t mst hx
    refine ⟨by simp, ?_, ?_⟩
    · intro info hinfo
      exact absurd hinfo (by simp)
    · intro err herr
      rw [← Except.error.inj herr, hretry]
  · rw [if_neg hx]
    refine ⟨by simp, ?_, ?_⟩
    · intro info hinfo
      rw [← Except.ok.inj hinfo]
      exact check_memory_strategy limit cost t mst
    · intro err herr
      exact absurd herr (by simp)

/-- C3, witness: on a fresh identifier with no client available, the
check does not surface a store error. -/
theorem c3_noclient_fallback_decision_witness :
    (check_rate_limit defaultCfg .noClient
        { requests := 5, window := 60, strategy := .sliding_window } 1 0
        emptyIdStore none).1 ≠ .error .storeError :=
  (c3_noclient_fallback_decision defaultCfg
      { requests := 5, window := 60, strategy := .sliding_window } 1 0
      emptyIdStore none).1

/-- C5, counterexample.  On the in-process fallback path a denied check
adds nothing: with requests 1 and one in-window stored timestamp, a
cost-1 check is denied and the stored request list is unchanged. -/
theorem c5_counterexample :
    (check_memory_rate_limit { requests := 1, window := 60, strategy := .sliding_window } 1 0
        (some { requests := [0], last_access := 0 })).1.exceeded = true ∧
    (check_memory_rate_limit { requests := 1, window := 60, strategy := .sliding_window } 1 0
        (some { requests := [0], last_access := 0 })).2.requests = [0] := by
  constructor
  · decide
  · decide

/-- C5, amended.  On the remote sliding-window path the member encoding
(now, cost) is present in the stored set after every check, denied or
not; on the fallback path a denied check stores exactly the pruned prior
timestamps — no entry is added for the denied request. -/
theorem c5_denied_request_entries (cfg : RateLimiterCfg) (limit : RateLimit)
    (cost t : Int) (s : List SWEntry) (e : Option MemEntry) :
    (∃ en, en ∈ (sliding_window_redis cfg limit cost t s).2 ∧
        en.m_time = t ∧ en.m_cost = cost ∧ en.score = t) ∧
    ((check_memory_rate_limit limit cost t e).1.exceeded = true →
      (check_memory_rate_limit limit cost t e).2.requests =
        (e.getD { requests := [], last_access := t }).requests.filter
          (fun r => decide (t - limit.window ≤ r))) := by
  constructor
  · have h := zadd_mem (zremrangebyscore s 0 (t - limit.window)) t cost t
    simpa [sliding_window_redis] using h
  · intro hx
    unfold check_memory_rate_limit at hx ⊢
    dsimp only at hx ⊢
    rw [decide_eq_true_eq] at hx
    rw [if_pos hx]

/-- C5, witness: a denied fallback check (requests 1, one stored
timestamp) leaves exactly the pruned prior entries. -/
theorem c5_denied_request_entries_witness :
    (check_memory_rate_limit { requests := 1, window := 60, strategy := .sliding_window } 1 0
        (some { requests := [5], last_access := 0 })).2.requests =
      ((some { requests := [5], last_access := 0 } : Option MemEntry).getD
          { requests := [], last_access := 0 }).requests.filter
        (fun r => decide ((0 : Int) - 60 ≤ r)) :=
  (c5_denied_request_entries defaultCfg
      { requests := 1, window := 60, strategy := .sliding_window } 1 0 []
      (some { requests := [5], last_access := 0 })).2 (by decide)

/-- C7, counterexample.  peek is not mutation-free on the remote path:
it deletes expired members from the stored set (here the set loses its
only entry). -/
theorem c7_counterexample :
    (get_rate_limit_info { requests := 5, window := 60, strategy := .sliding_window } 61
        [{ m_time := 0, m_cost := 1, score := 0 }]).2 = [] ∧
    [({ m_time := 0, m_cost := 1, score := 0 } : SWEntry)] ≠ ([] : List SWEntry) := by
  constructor
  · decide
  · decide

/-- C7, amended.  peek's only write is the pruning of expired entries,
which every later check performs anyway: interposing any number of peeks
at times at most the second check's time leaves that check's decision and
post-state identical, and the memory-path peek does not mutate at all. -/
theorem c7_peek_preserves_check (cfg : RateLimiterCfg) (limit : RateLimit)
    (cost tc : Int) (tps : List Int) (s : List SWEntry)
    (h : ∀ tp ∈ tps, tp ≤ tc) :
    sliding_window_redis cfg limit cost tc (runPeeks limit tps s) =
      sliding_window_redis cfg limit cost tc s ∧
    (∀ t2 e, (get_rate_limit_info_memory limit t2 e).2 = e) := by
  refine ⟨runPeeks_preserves cfg limit cost tc tps s h, ?_⟩
  intro t2 e
  cases e <;> rfl

/-- C7, witness: one interposed peek at t 30 does not change a check at
t 60. -/
theorem c7_peek_preserves_check_witness :
    sliding_window_redis defaultCfg
        { requests := 5, window := 60, strategy := .sliding_window } 1 60
        (runPeeks { requests := 5, window := 60, strategy := .sliding_window } [30]
          [{ m_time := 0, m_cost := 1, score := 0 }]) =
      sliding_window_redis defaultCfg
        { requests := 5, window := 60, strategy := .sliding_window } 1 60
        [{ m_time := 0, m_cost := 1, score := 0 }] :=
  (c7_peek_preserves_check defaultCfg
      { requests := 5, window := 60, strategy := .sliding_window } 1 60 [30]
      [{ m_time := 0, m_cost := 1, score := 0 }] (by decide)).1

/-- C8.  Stored tokens never exceed the capacity over any sequence of
checks with nonnegative costs, and a denied check (with time moving
forward) does not reduce the stored tokens while still persisting the
refreshed state. -/
theorem c8_token_bucket_refill_bound (limit : RateLimit) (calls : List (Int × Int))
    (b : Option BucketState) (hreq : 0 ≤ limit.requests) (hwin : 0 ≤ limit.window)
    (hc : ∀ p ∈ calls, 0 ≤ p.2) (hwf : BucketWF limit b) :
    BucketWF limit (runBucket limit calls b) ∧
    (∀ t c x, 0 ≤ c → x.tokens ≤ (limit.requests : ℚ) → x.last_refill ≤ t →
      (token_bucket_redis limit c t (some x)).1.exceeded = true →
      x.tokens ≤ (token_bucket_redis limit c t (some x)).2.tokens ∧
      (token_bucket_redis limit c t (some x)).2.last_refill = t) :=
  ⟨runBucket_wf limit calls b hc hwf,
   fun t c x _ h2 h3 h4 => token_bucket_denied_no_decrease limit c t x hreq hwin h2 h3 h4⟩

/-- C8, witness: a denied cost-1 check on an empty bucket does not reduce
the stored tokens and stamps the refill time. -/
theorem c8_token_bucket_refill_bound_witness :
    ({ tokens := 0, last_refill := 0 } : BucketState).tokens ≤
        (token_bucket_redis { requests := 10, window := 10, strategy := .token_bucket } 1 0
          (some { tokens := 0, last_refill := 0 })).2.tokens ∧
    (token_bucket_redis { requests := 10, window := 10, strategy := .token_bucket } 1 0
        (some { tokens := 0, last_refill := 0 })).2.last_refill = 0 := by
  have h := c8_token_bucket_refill_bound
      { requests := 10, window := 10, strategy := .token_bucket } [] none
      (by norm_num) (by norm_num) (by intro p hp; cases hp)
      (fun x hx => Option.noConfusion hx)
  exact h.2 0 1 { tokens := 0, last_refill := 0 } (by norm_num) (by norm_num)
    (by norm_num) (by norm_num [token_bucket_redis])

/-- C9.  get_rate_limit_info reads only the sliding-window component of
the store: its result ignores the fixed-window counters and the token
bucket, it never reads the configured strategy, and whenever the pruned
sliding set is empty it reports remaining = requests. -/
theorem c9_peek_ignores_strategy_and_other_counters (limit : RateLimit)
    (σ : RateLimitStrategy) (t : Int) (st st2 : IdStore)
    (hs : st.sliding = st2.sliding) (hreq : 0 ≤ limit.requests) :
    (get_rate_limit_info_store limit t st).1 = (get_rate_limit_info_store limit t st2).1 ∧
    get_rate_limit_info_store
        { requests := limit.requests, window := limit.window, strategy := σ } t st =
      get_rate_limit_info_store limit t st ∧
    (zremrangebyscore st.sliding 0 (t - limit.window) = [] →
      (get_rate_limit_info_store limit t st).1.remaining = limit.requests) := by
  refine ⟨?_, rfl, ?_⟩
  · unfold get_rate_limit_info_store get_rate_limit_info
    dsimp only
    rw [hs]
  · intro hempty
    unfold get_rate_limit_info_store get_rate_limit_info
    dsimp only
    rw [hempty]
    simp only [List.length_nil, Nat.cast_zero, sub_zero]
    exact max_eq_right hreq

/-- C9, witness: for a fixed-window configuration whose identifier has a
stored fixed counter and a stored bucket but an empty sliding set, peek
reports remaining = requests. -/
theorem c9_peek_ignores_strategy_and_other_counters_witness :
    (get_rate_limit_info_store { requests := 5, window := 60, strategy := .fixed_window } 0
        { sliding := [], fixedc := fun _ => some 99,
          bucket := some { tokens := 3, last_refill := 7 } }).1.remaining = 5 :=
  (c9_peek_ignores_strategy_and_other_counters
      { requests := 5, window := 60, strategy := .fixed_window } .token_bucket 0
      { sliding := [], fixedc := fun _ => some 99,
        bucket := some { tokens := 3, last_refill := 7 } }
      emptyIdStore rfl (by norm_num)).2.2 rfl

/-- C10.  reset_rate_limit returns true and keeps exactly the keys that
do not match the glob rate_limit:*:{identifier}*; since the glob star
also extends past the identifier, every standard key of an identifier
that extends the argument (prefix collision) matches and is deleted. -/
theorem c10_reset_deletes_matching_keys (a s ws : List Char) (ks : List (List Char)) :
    (reset_rate_limit a ks).2 = true ∧
    (∀ k, k ∈ (reset_rate_limit a ks).1 ↔
      (k ∈ ks ∧ ¬ ∃ x y, k = "rate_limit:".data ++ x ++ ':' :: (a ++ y))) ∧
    resetKeyPattern a (slidingKey (a ++ s)) = true ∧
    resetKeyPattern a (fixedKey (a ++ s) ws) = true ∧
    resetKeyPattern a (bucketKey (a ++ s)) = true := by
  refine ⟨rfl, ?_, ?_, ?_, ?_⟩
  · intro k
    unfold reset_rate_limit
    rw [List.mem_filter, Bool.not_eq_true']
    constructor
    · rintro ⟨hk, hf⟩
      refine ⟨hk, fun hex => ?_⟩
      rw [(resetKeyPattern_iff a k).mpr hex] at hf
      exact Bool.noConfusion hf
    · rintro ⟨hk, hnex⟩
      refine ⟨hk, ?_⟩
      cases hpat : resetKeyPattern a k
      · rfl
      · exact absurd ((resetKeyPattern_iff a k).mp hpat) hnex
  · have hhead : "rate_limit:sliding:".data =
        "rate_limit:".data ++ "sliding".data ++ [':'] := by decide
    unfold slidingKey
    rw [hhead]
    have heq : ("rate_limit:".data ++ "sliding".data ++ [':']) ++ (a ++ s) =
        "rate_limit:".data ++ "sliding".data ++ ':' :: (a ++ s) := by
      simp
    rw [heq]
    exact resetKeyPattern_of_shape a "sliding".data s
  · have hhead : "rate_limit:fixed:".data =
        "rate_limit:".data ++ "fixed".data ++ [':'] := by decide
    unfold fixedKey
    rw [hhead]
    have heq : (("rate_limit:".data ++ "fixed".data ++ [':']) ++ (a ++ s)) ++ ':' :: ws =
        "rate_limit:".data ++ "fixed".data ++ ':' :: (a ++ (s ++ ':' :: ws)) := by
      simp
    rw [heq]
    exact resetKeyPattern_of_shape a "fixed".data (s ++ ':' :: ws)
  · have hhead : "rate_limit:bucket:".data =
        "rate_limit:".data ++ "bucket".data ++ [':'] := by decide
    unfold bucketKey
    rw [hhead]
    have heq : ("rate_limit:".data ++ "bucket".data ++ [':']) ++ (a ++ s) =
        "rate_limit:".data ++ "bucket".data ++ ':' :: (a ++ s) := by
      simp
    rw [heq]
    exact resetKeyPattern_of_shape a "bucket".data s

/-- C10, witness: resetting identifier u also matches the sliding key of
identifier u1, of which u is a proper prefix. -/
theorem c10_reset_deletes_matching_keys_witness :
    resetKeyPattern ['u'] (slidingKey (['u'] ++ ['1'])) = true :=
  (c10_reset_deletes_matching_keys ['u'] ['1'] ['0'] []).2.2.1

end RateLimiting
